import Mathlib

/-!
# Verification of the DurableLinks-Generator link service

A shallow embedding of the Go link service (`service` package) together with
its data model.  Pure Go functions become Lean functions; the persistence
collaborator (`repository.LinkRepository`) and the helper predicates of the
absent `utils` package are passed in explicitly (the repository as a concrete
state-passing model written down from the spec's interface contract, the
`utils` predicates as parameters of a `Utils` record, since their sources are
not part of the service package).  Go strings are modelled as Lean `String`s
and the byte-level query escaping of `net/url` is reproduced on UTF-8 bytes.
-/

namespace DurableLinks

/-! ## Data model

The request/response structures of the `models` package.  The
`DurableLinkCreationWarning`, `ShortLinkResponse`, `LongLinkResponse` and the
`CreateDurableLinkRequest` shell are taken from the source; the nested
`DurableLinkInfo` blocks are reconstructed from their uses in the service code
and the spec's data model (the struct declarations themselves are not in the
service package). -/

structure DurableLinkCreationWarning where
  warningCode : String
  warningMessage : String
deriving DecidableEq

structure AndroidParameters where
  androidPackageName : String := ""
  androidFallbackLink : String := ""
  androidMinPackageVersionCode : String := ""
deriving DecidableEq

structure IosParameters where
  iosAppStoreId : String := ""
  iosFallbackLink : String := ""
  iosIpadFallbackLink : String := ""
deriving DecidableEq

structure OtherPlatformParameters where
  fallbackURL : String := ""
deriving DecidableEq

structure SocialMetaTagInfo where
  socialTitle : String := ""
  socialDescription : String := ""
  socialImageLink : String := ""
deriving DecidableEq

structure MarketingParameters where
  utmSource : String := ""
  utmMedium : String := ""
  utmCampaign : String := ""
  utmTerm : String := ""
  utmContent : String := ""
deriving DecidableEq

structure ItunesConnectAnalytics where
  at_ : String := ""
  ct : String := ""
  mt : String := ""
  pt : String := ""
deriving DecidableEq

structure AnalyticsInfo where
  marketingParameters : MarketingParameters := {}
  itunesConnectAnalytics : ItunesConnectAnalytics := {}
deriving DecidableEq

structure DurableLinkInfo where
  host : String := ""
  link : String := ""
  androidParameters : AndroidParameters := {}
  iosParameters : IosParameters := {}
  otherPlatformParameters : OtherPlatformParameters := {}
  socialMetaTagInfo : SocialMetaTagInfo := {}
  analyticsInfo : AnalyticsInfo := {}
deriving DecidableEq

structure Suffix where
  option : String := ""
deriving DecidableEq

structure CreateDurableLinkRequest where
  durableLinkInfo : DurableLinkInfo := {}
  suffix : Suffix := {}
deriving DecidableEq

structure ShortLinkResponse where
  shortLink : String
  warnings : List DurableLinkCreationWarning
deriving DecidableEq

structure LongLinkResponse where
  longLink : String
deriving DecidableEq

/-- `config.AppConfig` (source: `config/app_config.go`). -/
structure AppConfig where
  shortPathLength : Nat := 6
  unguessablePathLength : Nat := 10
  defaultAndroidPackageName : Option String := none
  defaultIosStoreId : Option String := none
  urlScheme : String := "https"
  allowedDomains : List String := []

/-! ## Errors

The repository-level outcomes follow the spec's persistence contract
(`get`/`findGuessable`/`put`); the service-level errors are the `apperrors`
values returned by the service code, plus `repoErr`/`failedToStore` for a
repository error returned as-is respectively wrapped by
`fmt.Errorf("failed to store link: %w", err)`. -/

inductive RepoError where
  | noRows
  | duplicatePath
  | storage (msg : String)
deriving DecidableEq

inductive AppError where
  | invalidHost
  | domainLinkNotAllowed
  | invalidAppStoreID
  | invalidURLFormat
  | hostInvalid
  | missingHost
  | missingLink
  | invalidFormat
  | invalidRequestedLink
  | invalidPathFormat
  | repoErr (e : RepoError)
  | failedToStore (e : RepoError)
deriving DecidableEq

instance {ε α : Type} [DecidableEq ε] [DecidableEq α] : DecidableEq (Except ε α) := fun x y =>
  match x, y with
  | .ok a, .ok b =>
    if h : a = b then .isTrue (by rw [h]) else .isFalse (fun hh => h (Except.ok.inj hh))
  | .error a, .error b =>
    if h : a = b then .isTrue (by rw [h]) else .isFalse (fun hh => h (Except.error.inj hh))
  | .ok _, .error _ => .isFalse (fun hh => Except.noConfusion hh)
  | .error _, .ok _ => .isFalse (fun hh => Except.noConfusion hh)

/-! ## Go string helpers

Lean models of the `strings` standard-library functions used by the service,
written over the character list of a `String` (the hosts and paths involved
are ASCII, where Go's byte-wise and Lean's character-wise views agree). -/

/-- Go `strings.HasPrefix`. -/
def goHasPre (s p : String) : Bool := p.data.isPrefixOf s.data

/-- Go `strings.HasSuffix`. -/
def goHasSuf (s p : String) : Bool := p.data.isSuffixOf s.data

/-- Go `strings.TrimPrefix`: drop `p` from the front of `s` when present. -/
def goTrimPre (s p : String) : String :=
  if goHasPre s p then ⟨s.data.drop p.data.length⟩ else s

/-- Go `strings.TrimSuffix`: drop `p` from the end of `s` when present. -/
def goTrimSuf (s p : String) : String :=
  if goHasSuf s p then ⟨(s.data.reverse.drop p.data.length).reverse⟩ else s

/-- Go `strings.Trim(s, "/")`: remove leading and trailing slashes. -/
def goTrimSlashes (s : String) : String :=
  ⟨((s.data.dropWhile (· == '/')).reverse.dropWhile (· == '/')).reverse⟩

/-- Split a character list at every occurrence of `c`
(Go `strings.Split` for a one-character separator; the empty list splits to
`[[]]`, matching Go's `Split("", sep) = [""]`). -/
def splitChar (c : Char) : List Char → List (List Char)
  | [] => [[]]
  | x :: xs =>
    let r := splitChar c xs
    if x == c then [] :: r
    else
      match r with
      | h :: t => (x :: h) :: t
      | [] => [[x]]

/-- Go `strings.Split(s, "/")`. -/
def goSplitSlash (s : String) : List String :=
  (splitChar '/' s.data).map fun l => ⟨l⟩

/-- Find the first `'.'` in a character list and return the parts before and
after it, if any. -/
def splitFirstDot : List Char → Option (List Char × List Char)
  | [] => none
  | c :: cs =>
    if c == '.' then some ([], cs)
    else
      match splitFirstDot cs with
      | some (a, b) => some (c :: a, b)
      | none => none

/-- Go `strings.SplitN(s, ".", 2)`. -/
def goSplitN2Dot (s : String) : List String :=
  match splitFirstDot s.data with
  | none => [s]
  | some (a, b) => [⟨a⟩, ⟨b⟩]

/-- `removePreviewFromHost` from the service source: strip a leading
`preview.` label, or a `-preview` tail from the first dot-separated label. -/
def removePreviewFromHost (host : String) : String :=
  if goHasPre host "preview." then goTrimPre host "preview."
  else
    match goSplitN2Dot host with
    | [a, b] =>
      if goHasSuf a "-preview" then goTrimSuf a "-preview" ++ "." ++ b
      else host
    | _ => host

/-! ## Query encoding (`net/url`)

The service builds a `url.Values` by `Add`ing pairs in a fixed order and
serializes it with `Encode()`.  `Encode` emits `key=value` pairs sorted by
key, both sides escaped by `url.QueryEscape`, joined with `&`.  We model the
`Values` as the list of added pairs (every key is added at most once by the
service) and `Encode` as a sort by key followed by byte-wise escaping of the
UTF-8 bytes of each component. -/

/-- UTF-8 encoding of a character (the byte sequence Go stores for it). -/
def utf8Bytes (c : Char) : List Nat :=
  let n := c.toNat
  if n < 0x80 then [n]
  else if n < 0x800 then
    [0xC0 ||| (n >>> 6), 0x80 ||| (n &&& 0x3F)]
  else if n < 0x10000 then
    [0xE0 ||| (n >>> 12), 0x80 ||| ((n >>> 6) &&& 0x3F), 0x80 ||| (n &&& 0x3F)]
  else
    [0xF0 ||| (n >>> 18), 0x80 ||| ((n >>> 12) &&& 0x3F),
     0x80 ||| ((n >>> 6) &&& 0x3F), 0x80 ||| (n &&& 0x3F)]

/-- The UTF-8 bytes of a string. -/
def utf8Encode (s : String) : List Nat := s.data.flatMap utf8Bytes

/-- Go `url.QueryEscape` leaves a byte unescaped iff it is alphanumeric or one
of `-` `_` `.` `~`. -/
def isUnreservedByte (b : Nat) : Bool :=
  (48 ≤ b && b ≤ 57) || (65 ≤ b && b ≤ 90) || (97 ≤ b && b ≤ 122) ||
    b == 45 || b == 95 || b == 46 || b == 126

/-- Upper-case hexadecimal digit for `n < 16`. -/
def hexDigit (n : Nat) : Char :=
  if n < 10 then Char.ofNat (48 + n) else Char.ofNat (55 + n)

/-- Escape one byte as `url.QueryEscape` does: unreserved bytes stand for
themselves, a space becomes `+`, everything else becomes `%XX`. -/
def escByte (b : Nat) : List Char :=
  if isUnreservedByte b then [Char.ofNat b]
  else if b == 32 then ['+']
  else ['%', hexDigit (b / 16), hexDigit (b % 16)]

/-- Go `url.QueryEscape`. -/
def queryEscape (s : String) : String := ⟨(utf8Encode s).flatMap escByte⟩

/-- Byte-wise "less or equal" on strings, as Go's `sort.Strings` compares keys
in `url.Values.Encode` (on ASCII keys the byte order and the character order
coincide). -/
def charListLe : List Char → List Char → Bool
  | [], _ => true
  | _ :: _, [] => false
  | a :: as, b :: bs =>
    if a < b then true else if b < a then false else charListLe as bs

/-- Key order used by `url.Values.Encode`: compare first components. -/
def pairLe (p q : String × String) : Prop := charListLe p.1.data q.1.data = true

instance : DecidableRel pairLe := fun p q =>
  inferInstanceAs (Decidable (charListLe p.1.data q.1.data = true))

instance : IsTotal (String × String) pairLe := by
  constructor
  intro p q
  show charListLe p.1.data q.1.data = true ∨ charListLe q.1.data p.1.data = true
  generalize p.1.data = a
  generalize q.1.data = b
  induction a generalizing b with
  | nil => left; rfl
  | cons x xs ih =>
    cases b with
    | nil => right; rfl
    | cons y ys =>
      by_cases hxy : x < y
      · left; simp [charListLe, hxy]
      · by_cases hyx : y < x
        · right; simp [charListLe, hyx, asymm hyx]
        · rcases ih ys with h | h
          · left; simp [charListLe, hxy, hyx, h]
          · right; simp [charListLe, hxy, hyx, h]

instance : IsTrans (String × String) pairLe := by
  constructor
  intro p q r
  show charListLe p.1.data q.1.data = true → charListLe q.1.data r.1.data = true →
    charListLe p.1.data r.1.data = true
  generalize p.1.data = a
  generalize q.1.data = b
  generalize r.1.data = c
  induction a generalizing b c with
  | nil => intro _ _; rfl
  | cons x xs ih =>
    intro h1 h2
    cases b with
    | nil => simp [charListLe] at h1
    | cons y ys =>
      cases c with
      | nil => simp [charListLe] at h2
      | cons z zs =>
        simp only [charListLe] at h1 h2 ⊢
        by_cases hxy : x < y
        · by_cases hyz : y < z
          · simp [lt_trans hxy hyz]
          · by_cases hzy : z < y
            · simp [hyz, hzy] at h2
            · have : y = z := le_antisymm (not_lt.mp hzy) (not_lt.mp hyz)
              subst this
              simp [hxy]
        · by_cases hyx : y < x
          · simp [hxy, hyx] at h1
          · have hxy' : x = y := le_antisymm (not_lt.mp hyx) (not_lt.mp hxy)
            subst hxy'
            simp only [lt_irrefl, if_false] at h1
            by_cases hyz : x < z
            · simp [hyz]
            · by_cases hzy : z < x
              · simp [hyz, hzy] at h2
              · have : x = z := le_antisymm (not_lt.mp hzy) (not_lt.mp hyz)
                subst this
                simp only [lt_irrefl, if_false] at h2 ⊢
                exact ih _ _ h1 h2

/-- Sort the pairs by key, as `url.Values.Encode` does (a stable insertion
sort; with distinct keys any sort agrees). -/
def sortByKey (l : List (String × String)) : List (String × String) :=
  List.insertionSort pairLe l

/-- `url.Values.Encode`: pairs sorted by key, each emitted as
`escape(key)=escape(value)`, joined by `&`. -/
def encodeValues (l : List (String × String)) : String :=
  String.intercalate "&"
    ((sortByKey l).map fun p => queryEscape p.1 ++ "=" ++ queryEscape p.2)

/-- The `addParam` closure of `CreateDurableLink`: add the pair only when the
value is non-empty. -/
def addParam (k v : String) : List (String × String) :=
  if v = "" then [] else [(k, v)]

/-- The `url.Values` built by `CreateDurableLink`, as the list of pairs in the
order the code `Add`s them (`link` unconditionally, every other key through
`addParam`). -/
def buildQueryParams (p : CreateDurableLinkRequest) : List (String × String) :=
  let i := p.durableLinkInfo
  [("link", i.link)]
    ++ addParam "apn" i.androidParameters.androidPackageName
    ++ addParam "afl" i.androidParameters.androidFallbackLink
    ++ addParam "amv" i.androidParameters.androidMinPackageVersionCode
    ++ addParam "ifl" i.iosParameters.iosFallbackLink
    ++ addParam "ipfl" i.iosParameters.iosIpadFallbackLink
    ++ addParam "isi" i.iosParameters.iosAppStoreId
    ++ addParam "ofl" i.otherPlatformParameters.fallbackURL
    ++ addParam "st" i.socialMetaTagInfo.socialTitle
    ++ addParam "sd" i.socialMetaTagInfo.socialDescription
    ++ addParam "si" i.socialMetaTagInfo.socialImageLink
    ++ addParam "utm_source" i.analyticsInfo.marketingParameters.utmSource
    ++ addParam "utm_medium" i.analyticsInfo.marketingParameters.utmMedium
    ++ addParam "utm_campaign" i.analyticsInfo.marketingParameters.utmCampaign
    ++ addParam "utm_term" i.analyticsInfo.marketingParameters.utmTerm
    ++ addParam "utm_content" i.analyticsInfo.marketingParameters.utmContent
    ++ addParam "pt" i.analyticsInfo.itunesConnectAnalytics.pt
    ++ addParam "at" i.analyticsInfo.itunesConnectAnalytics.at_
    ++ addParam "ct" i.analyticsInfo.itunesConnectAnalytics.ct
    ++ addParam "mt" i.analyticsInfo.itunesConnectAnalytics.mt

/-- The fixed key table of the canonicalizer, in insertion order. -/
def allKeys : List String :=
  ["link", "apn", "afl", "amv", "ifl", "ipfl", "isi", "ofl", "st", "sd", "si",
   "utm_source", "utm_medium", "utm_campaign", "utm_term", "utm_content",
   "pt", "at", "ct", "mt"]

/-! ## Persistence model

The repository sources are outside the service package.  Modelled from the
spec: persistence is a list of `ShortLinkRecord`s keyed by `(host, path)`;
`get` returns the stored raw query, `findGuessable` matches `(host, rawQuery)`
among guessable records only, `put` appends and reports `DuplicatePath` when
the `(host, path)` key is already taken. -/

structure ShortLinkRecord where
  host : String
  path : String
  rawQuery : String
  unguessable : Bool
deriving DecidableEq

abbrev Store := List ShortLinkRecord

namespace Repo

/-- Modelled from the spec: `get(host, path) → (rawQuery, …) | NotFound`
(`repo.GetQueryParamsByHostAndPath`; a miss is `sql.ErrNoRows`). -/
def getQueryParamsByHostAndPath (store : Store) (host path : String) :
    Except RepoError String :=
  match store.find? (fun r => r.host == host && r.path == path) with
  | some r => .ok r.rawQuery
  | none => .error .noRows

/-- Modelled from the spec: `findGuessable(host, rawQuery) → path | NotFound`
(`repo.FindExistingShortLink`; unguessable records are never offered for
reuse). -/
def findExistingShortLink (store : Store) (host rawQS : String) :
    Except RepoError String :=
  match store.find? (fun r => r.host == host && r.rawQuery == rawQS && !r.unguessable) with
  | some r => .ok r.path
  | none => .error .noRows

/-- Modelled from the spec: `put(host, path, rawQuery, unguessable) → ok |
DuplicatePath` (`repo.CreateShortLink`; `path` is unique per host). -/
def createShortLink (store : Store) (host path rawQS : String)
    (unguessable : Bool) : Except RepoError Store :=
  if store.any (fun r => r.host == host && r.path == path) then
    .error .duplicatePath
  else
    .ok (store ++ [⟨host, path, rawQS, unguessable⟩])

end Repo

/-! ## The absent `utils` package

`CleanHost`, `IsDomainAllowed`, `IsNumericString`, `IsURL`,
`ValidateURLScheme`, `GenerateRandomAlphanumericString` and `url.Parse` are
collaborators whose sources are not in the service package; they enter the
embedding as explicit parameters.  `URLParts` is the structural view of a
parsed `url.URL` (`Host`, `Path`, and `Query()` already in decoded pair
form). -/

structure URLParts where
  host : String := ""
  path : String := ""
  queryPairs : List (String × String) := []

structure Utils where
  cleanHost : String → Option String := some
  isDomainAllowed : List String → String → Bool := fun _ _ => true
  isNumericString : String → Bool := fun _ => true
  isURL : String → Bool := fun _ => true
  validateURLScheme : String → Except AppError Unit := fun _ => .ok ()
  urlParse : String → Option URLParts := fun _ => none
  generateRandomAlphanumericString : Nat → String := fun n => ⟨List.replicate n 'a'⟩

/-! ## The service -/

/-- `scheme://host/path`. -/
def fullLink (cfg : AppConfig) (host path : String) : String :=
  cfg.urlScheme ++ "://" ++ host ++ "/" ++ path

/-- `getLongLinkFromHostAndPath`: look the path up and rebuild
`scheme://host/path[?rawQuery]`, with the `?` omitted for an empty stored
query. -/
def getLongLinkFromHostAndPath (cfg : AppConfig) (store : Store)
    (host path : String) : Except AppError LongLinkResponse :=
  match Repo.getQueryParamsByHostAndPath store host path with
  | .error e => .error (.repoErr e)
  | .ok rawQueryStr =>
    .ok { longLink :=
      fullLink cfg host path ++
        (if rawQueryStr = "" then "" else "?" ++ rawQueryStr) }

/-- `ResolveShortPath`.  The `url.Parse` step is represented by the `Option
URLParts` argument: `none` is an unparsable URL. -/
def resolveShortPath (cfg : AppConfig) (store : Store)
    (parsed : Option URLParts) : Except AppError LongLinkResponse :=
  match parsed with
  | none => .error .invalidRequestedLink
  | some u =>
    let normalizedHost := removePreviewFromHost u.host
    let pathParts := goSplitSlash (goTrimSlashes u.path)
    match pathParts with
    | [p] => getLongLinkFromHostAndPath cfg store normalizedHost p
    | _ => .error .invalidPathFormat

/-- `createShortLink` on the service (delegates to the repository). -/
def serviceCreateShortLink (store : Store) (host path rawQS : String)
    (unguessable : Bool) : Except RepoError Store :=
  Repo.createShortLink store host path rawQS unguessable

/-- `findExistingShortLink` on the service (delegates to the repository). -/
def serviceFindExistingShortLink (store : Store) (host rawQS : String) :
    Except RepoError String :=
  Repo.findExistingShortLink store host rawQS

/-- `createOrGetShortLink`: serialize the query; for a `SHORT` suffix try to
reuse an existing guessable record first; otherwise generate a token of the
configured length and persist it. -/
def createOrGetShortLink (cfg : AppConfig) (ut : Utils) (store : Store)
    (host : String) (queryParams : List (String × String)) (shortPath : Bool) :
    Except AppError (ShortLinkResponse × Store) :=
  let rawQS := encodeValues queryParams
  let generateAndStore : Except AppError (ShortLinkResponse × Store) :=
    let length := if shortPath then cfg.shortPathLength else cfg.unguessablePathLength
    let path := ut.generateRandomAlphanumericString length
    match serviceCreateShortLink store host path rawQS (!shortPath) with
    | .error e => .error (.failedToStore e)
    | .ok store' => .ok ({ shortLink := fullLink cfg host path, warnings := [] }, store')
  if shortPath then
    match serviceFindExistingShortLink store host rawQS with
    | .ok path => .ok ({ shortLink := fullLink cfg host path, warnings := [] }, store)
    | .error e => if e = .noRows then generateAndStore else .error (.repoErr e)
  else generateAndStore

/-- The creation warnings accumulated by `CreateDurableLink`, in the order the
code appends them (`MALFORMED_PARAM` for a non-URL `si`, then the
`isi`-dependency block over `at`/`ct`/`mt`/`pt`, then the `pt`-dependency
block over `at`/`ct`/`mt`). -/
def creationWarnings (isURL : String → Bool) (i : DurableLinkInfo) :
    List DurableLinkCreationWarning :=
  let isi := i.iosParameters.iosAppStoreId
  let itc := i.analyticsInfo.itunesConnectAnalytics
  let si := i.socialMetaTagInfo.socialImageLink
  (if si ≠ "" ∧ ¬ isURL si then
    [⟨"MALFORMED_PARAM", "Param 'si' is not a valid URL"⟩] else [])
  ++ (if isi = "" then
      (if itc.at_ ≠ "" then
        [⟨"UNRECOGNIZED_PARAM", "Param 'at' is not needed, since 'isi' is not specified."⟩] else [])
      ++ (if itc.ct ≠ "" then
        [⟨"UNRECOGNIZED_PARAM", "Param 'ct' is not needed, since 'isi' is not specified."⟩] else [])
      ++ (if itc.mt ≠ "" then
        [⟨"UNRECOGNIZED_PARAM", "Param 'mt' is not needed, since 'isi' is not specified."⟩] else [])
      ++ (if itc.pt ≠ "" then
        [⟨"UNRECOGNIZED_PARAM", "Param 'pt' is not needed, since 'isi' is not specified."⟩] else [])
    else [])
  ++ (if itc.pt = "" then
      (if itc.at_ ≠ "" then
        [⟨"UNRECOGNIZED_PARAM", "Param 'at' is not needed, since 'pt' is not specified."⟩] else [])
      ++ (if itc.ct ≠ "" then
        [⟨"UNRECOGNIZED_PARAM", "Param 'ct' is not needed, since 'pt' is not specified."⟩] else [])
      ++ (if itc.mt ≠ "" then
        [⟨"UNRECOGNIZED_PARAM", "Param 'mt' is not needed, since 'pt' is not specified."⟩] else [])
    else [])

/-- `CreateDurableLink`: validate host, allow-list and App Store id, build the
query pairs and the warnings, then allocate through `createOrGetShortLink` and
attach the warnings to the response. -/
def createDurableLink (cfg : AppConfig) (ut : Utils) (store : Store)
    (params : CreateDurableLinkRequest) :
    Except AppError (ShortLinkResponse × Store) :=
  match ut.cleanHost params.durableLinkInfo.host with
  | none => .error .invalidHost
  | some host =>
    if ¬ ut.isDomainAllowed cfg.allowedDomains params.durableLinkInfo.link then
      .error .domainLinkNotAllowed
    else
      if params.durableLinkInfo.iosParameters.iosAppStoreId ≠ "" ∧
          ¬ ut.isNumericString params.durableLinkInfo.iosParameters.iosAppStoreId then
        .error .invalidAppStoreID
      else
        match createOrGetShortLink cfg ut store host (buildQueryParams params)
            (params.suffix.option == "SHORT") with
        | .error e => .error e
        | .ok (response, store') =>
          .ok ({ response with
                 warnings := creationWarnings ut.isURL params.durableLinkInfo }, store')

/-- Go `Values.Get`: first value for the key, `""` when absent. -/
def getParam (k : String) (l : List (String × String)) : String :=
  (List.lookup k l).getD ""

/-- The body of `ParseLongDurableLink` after a successful `url.Parse`.  Each
field starts from its zero value (or the configured default for `apn`/`isi`)
and is overwritten by the same-named query parameter when that is
non-empty. -/
def parseURLParts (cfg : AppConfig) (u : URLParts) :
    Except AppError CreateDurableLinkRequest :=
  if u.host = "" then .error .hostInvalid
    else
      let g := fun k => getParam k u.queryPairs
      let withDefault := fun (d : Option String) (k : String) =>
        if g k ≠ "" then g k else d.getD ""
      let keep := fun (k : String) => if g k ≠ "" then g k else ""
      .ok
        { durableLinkInfo :=
          { host := u.host
            link := g "link"
            androidParameters :=
              { androidPackageName := withDefault cfg.defaultAndroidPackageName "apn"
                androidFallbackLink := keep "afl"
                androidMinPackageVersionCode := keep "amv" }
            iosParameters :=
              { iosAppStoreId := withDefault cfg.defaultIosStoreId "isi"
                iosFallbackLink := keep "ifl"
                iosIpadFallbackLink := keep "ipfl" }
            otherPlatformParameters := { fallbackURL := keep "ofl" }
            socialMetaTagInfo :=
              { socialTitle := keep "st"
                socialDescription := keep "sd"
                socialImageLink := keep "si" }
            analyticsInfo :=
              { marketingParameters :=
                  { utmSource := keep "utm_source"
                    utmMedium := keep "utm_medium"
                    utmCampaign := keep "utm_campaign"
                    utmTerm := keep "utm_term"
                    utmContent := keep "utm_content" }
                itunesConnectAnalytics :=
                  { at_ := keep "at"
                    ct := keep "ct"
                    mt := keep "mt"
                    pt := keep "pt" } } }
          suffix := { option := keep "path" } }

/-- `ParseLongDurableLink`, with `url.Parse` as the `urlPar` parameter:
an unparsable link is `InvalidURLFormat`, otherwise the parsed parts are
decoded by `parseURLParts`. -/
def parseLongDurableLink (cfg : AppConfig) (urlPar : String → Option URLParts)
    (longDurableLink : String) : Except AppError CreateDurableLinkRequest :=
  match urlPar longDurableLink with
  | none => .error .invalidURLFormat
  | some u => parseURLParts cfg u

/-! ## Dynamic request bodies (`PrepareDurableLinkRequest`)

The handler passes a decoded JSON object (`map[string]any`).  We model the
object as an association list of JSON values; Go's
`json.Marshal`/`json.Unmarshal` round-trip through the request struct becomes
a direct structural decode (modelled from the spec's data model: unknown keys
ignored, missing string fields zero-valued, a wrongly-typed field is a format
error). -/

inductive JValue where
  | null
  | bool (b : Bool)
  | num (n : Int)
  | str (s : String)
  | arr (elems : List JValue)
  | obj (fields : List (String × JValue))

/-- Read an optional string field of a JSON object. -/
def getStrField (o : List (String × JValue)) (k : String) :
    Except AppError String :=
  match List.lookup k o with
  | none => .ok ""
  | some JValue.null => .ok ""
  | some (JValue.str s) => .ok s
  | some _ => .error .invalidFormat

/-- Read an optional object field of a JSON object. -/
def getObjField (o : List (String × JValue)) (k : String) :
    Except AppError (List (String × JValue)) :=
  match List.lookup k o with
  | none => .ok []
  | some JValue.null => .ok []
  | some (JValue.obj fields) => .ok fields
  | some _ => .error .invalidFormat

/-- Modelled from the spec: the structural decode of a request body into
`CreateDurableLinkRequest` (the `json.Marshal` + `json.Unmarshal` pair of
`PrepareDurableLinkRequest`; the struct's JSON field names follow the data
model). -/
def decodeRequest (input : List (String × JValue)) :
    Except AppError CreateDurableLinkRequest := do
  let info ← getObjField input "durableLinkInfo"
  let android ← getObjField info "androidParameters"
  let ios ← getObjField info "iosParameters"
  let other ← getObjField info "otherPlatformParameters"
  let social ← getObjField info "socialMetaTagInfo"
  let analytics ← getObjField info "analyticsInfo"
  let marketing ← getObjField analytics "marketingParameters"
  let itunes ← getObjField analytics "itunesConnectAnalytics"
  let suffixObj ← getObjField input "suffix"
  let host ← getStrField info "host"
  let link ← getStrField info "link"
  let apn ← getStrField android "androidPackageName"
  let afl ← getStrField android "androidFallbackLink"
  let amv ← getStrField android "androidMinPackageVersionCode"
  let isi ← getStrField ios "iosAppStoreId"
  let ifl ← getStrField ios "iosFallbackLink"
  let ipfl ← getStrField ios "iosIpadFallbackLink"
  let ofl ← getStrField other "fallbackURL"
  let st ← getStrField social "socialTitle"
  let sd ← getStrField social "socialDescription"
  let si ← getStrField social "socialImageLink"
  let us ← getStrField marketing "utmSource"
  let um ← getStrField marketing "utmMedium"
  let uc ← getStrField marketing "utmCampaign"
  let utm ← getStrField marketing "utmTerm"
  let uco ← getStrField marketing "utmContent"
  let a ← getStrField itunes "at"
  let c ← getStrField itunes "ct"
  let m ← getStrField itunes "mt"
  let p ← getStrField itunes "pt"
  let opt ← getStrField suffixObj "option"
  return {
      durableLinkInfo :=
      { host := host, link := link
        androidParameters :=
          { androidPackageName := apn, androidFallbackLink := afl
            androidMinPackageVersionCode := amv }
        iosParameters :=
          { iosAppStoreId := isi, iosFallbackLink := ifl
            iosIpadFallbackLink := ipfl }
        otherPlatformParameters := { fallbackURL := ofl }
        socialMetaTagInfo :=
          { socialTitle := st, socialDescription := sd, socialImageLink := si }
        analyticsInfo :=
          { marketingParameters :=
              { utmSource := us, utmMedium := um, utmCampaign := uc
                utmTerm := utm, utmContent := uco }
            itunesConnectAnalytics := { at_ := a, ct := c, mt := m, pt := p } } }
      suffix := { option := opt } }

/-- The trailing required-field checks of `PrepareDurableLinkRequest`
(`MissingHost`, `MissingLink`, then the URL-scheme validation), factored out
of the function body. -/
def finalizeRequest (ut : Utils) (req : CreateDurableLinkRequest) :
    Except AppError CreateDurableLinkRequest :=
  if req.durableLinkInfo.host = "" then .error .missingHost
  else if req.durableLinkInfo.link = "" then .error .missingLink
  else
    match ut.validateURLScheme req.durableLinkInfo.link with
    | .error e => .error e
    | .ok _ => .ok req

/-- `PrepareDurableLinkRequest`: a non-empty string under `longDurableLink`
selects the parse path, anything else the structural decode; both results
then pass the `MissingHost`/`MissingLink`/URL-scheme checks. -/
def prepareDurableLinkRequest (cfg : AppConfig) (ut : Utils)
    (input : List (String × JValue)) :
    Except AppError CreateDurableLinkRequest :=
  let base : Except AppError CreateDurableLinkRequest :=
    match List.lookup "longDurableLink" input with
    | some (JValue.str longLink) =>
      if longLink ≠ "" then parseLongDurableLink cfg ut.urlParse longLink
      else decodeRequest input
    | _ => decodeRequest input
  match base with
  | .error e => .error e
  | .ok req => finalizeRequest ut req

/-! ## Predicates and concrete inputs used in the statements -/

/-- An alphanumeric token, as the spec describes the generated paths. -/
def isAlphanumericString (s : String) : Bool :=
  s.data.all fun c => c.isAlpha || c.isDigit

/-- The number of `UNRECOGNIZED_PARAM` warnings that concern the `at`
parameter (either dependency message). -/
def countAtWarnings (ws : List DurableLinkCreationWarning) : Nat :=
  (ws.filter fun w => w.warningCode == "UNRECOGNIZED_PARAM" &&
    (w.warningMessage == "Param 'at' is not needed, since 'isi' is not specified." ||
     w.warningMessage == "Param 'at' is not needed, since 'pt' is not specified.")).length

/-- Only `host`, `targetLink` and the fields of (at most) one platform block
populated: social, analytics and suffix empty, and all but one platform block
empty. -/
def platformBlocksOnly (d : CreateDurableLinkRequest) : Prop :=
  d.durableLinkInfo.socialMetaTagInfo = {} ∧
  d.durableLinkInfo.analyticsInfo = {} ∧
  ((d.durableLinkInfo.iosParameters = {} ∧ d.durableLinkInfo.otherPlatformParameters = {}) ∨
   (d.durableLinkInfo.androidParameters = {} ∧ d.durableLinkInfo.otherPlatformParameters = {}) ∨
   (d.durableLinkInfo.androidParameters = {} ∧ d.durableLinkInfo.iosParameters = {}))

/-- A concrete iOS-only description used to exercise the round trip. -/
def iosOnlyRequest : CreateDurableLinkRequest :=
  { durableLinkInfo :=
    { host := "h.com", link := "https://e.com",
      iosParameters := { iosAppStoreId := "12" } } }

/-! ## Proof infrastructure -/

theorem strEqOfDataEq {a b : String} (h : a.data = b.data) : a = b :=
  congrArg String.mk h

theorem charListLe_antisymm : ∀ a b : List Char,
    charListLe a b = true → charListLe b a = true → a = b := by
  intro a
  induction a with
  | nil =>
    intro b _ h2
    cases b with
    | nil => rfl
    | cons y ys => simp [charListLe] at h2
  | cons x xs ih =>
    intro b h1 h2
    cases b with
    | nil => simp [charListLe] at h1
    | cons y ys =>
      simp only [charListLe] at h1 h2
      by_cases hxy : x < y
      · simp [hxy, asymm hxy] at h2
      · by_cases hyx : y < x
        · simp [hxy, hyx] at h1
        · have hxy' : x = y := le_antisymm (not_lt.mp hyx) (not_lt.mp hxy)
          subst hxy'
          simp only [lt_irrefl, if_false] at h1 h2
          rw [ih _ h1 h2]

theorem sorted_perm_eq_of_nodupKeys : ∀ {l₁ l₂ : List (String × String)},
    l₁.Perm l₂ → List.Sorted pairLe l₁ → List.Sorted pairLe l₂ →
    (l₁.map Prod.fst).Nodup → l₁ = l₂ := by
  intro l₁
  induction l₁ with
  | nil =>
    intro l₂ hp _ _ _
    exact (List.Perm.eq_nil hp.symm).symm
  | cons a t ih =>
    intro l₂ hp hs₁ hs₂ hn
    cases l₂ with
    | nil => exact absurd hp.eq_nil (by simp)
    | cons b t₂ =>
      rw [List.map_cons] at hn
      obtain ⟨hna, hnt⟩ := List.nodup_cons.mp hn
      have hab : a = b := by
        by_contra hne
        have hbmem : b ∈ a :: t := hp.mem_iff.mpr (List.mem_cons_self b t₂)
        have hamem : a ∈ b :: t₂ := hp.mem_iff.mp (List.mem_cons_self a t)
        have hbt : b ∈ t := by
          cases List.mem_cons.mp hbmem with
          | inl h => exact absurd h.symm hne
          | inr h => exact h
        have hat : a ∈ t₂ := by
          cases List.mem_cons.mp hamem with
          | inl h => exact absurd h hne
          | inr h => exact h
        have h1 : pairLe a b := List.rel_of_sorted_cons hs₁ b hbt
        have h2 : pairLe b a := List.rel_of_sorted_cons hs₂ a hat
        have hkey : a.1 = b.1 := strEqOfDataEq (charListLe_antisymm _ _ h1 h2)
        exact hna (hkey ▸ List.mem_map_of_mem Prod.fst hbt)
      subst hab
      have ht := ih hp.cons_inv hs₁.of_cons hs₂.of_cons hnt
      rw [ht]

theorem lookup_eq_none_iff (k : String) (l : List (String × String)) :
    List.lookup k l = none ↔ k ∉ l.map Prod.fst := by
  induction l with
  | nil => simp
  | cons p t ih =>
    obtain ⟨a, b⟩ := p
    by_cases h : k = a
    · subst h; simp [List.lookup]
    · simp [List.lookup, beq_eq_false_iff_ne.mpr h, ih, h]

theorem mem_of_lookup_some {k v : String} {l : List (String × String)}
    (h : List.lookup k l = some v) : (k, v) ∈ l := by
  induction l with
  | nil => simp [List.lookup] at h
  | cons p t ih =>
    obtain ⟨a, b⟩ := p
    by_cases hk : k = a
    · subst hk
      simp [List.lookup] at h
      simp [h]
    · simp [List.lookup, beq_eq_false_iff_ne.mpr hk] at h
      exact List.mem_cons_of_mem _ (ih h)

theorem lookup_some_of_mem : ∀ {l : List (String × String)} {k v : String},
    (l.map Prod.fst).Nodup → (k, v) ∈ l → List.lookup k l = some v := by
  intro l
  induction l with
  | nil => intro k v _ h; simp at h
  | cons p t ih =>
    intro k v hn hm
    obtain ⟨a, b⟩ := p
    rw [List.map_cons] at hn
    obtain ⟨hna, hnt⟩ := List.nodup_cons.mp hn
    rcases List.mem_cons.mp hm with h | h
    · injection h with h1 h2
      subst h1; subst h2
      simp [List.lookup]
    · have hka : k ≠ a := by
        intro hk
        subst hk
        have hmm := List.mem_map_of_mem Prod.fst h
        exact hna hmm
      simp only [List.lookup, beq_eq_false_iff_ne.mpr hka]
      exact ih hnt h

theorem lookup_perm_of_nodupKeys {l₁ l₂ : List (String × String)}
    (hp : l₁.Perm l₂) (hn : (l₁.map Prod.fst).Nodup) (k : String) :
    List.lookup k l₁ = List.lookup k l₂ := by
  cases h : List.lookup k l₁ with
  | none =>
    have hk := (lookup_eq_none_iff k l₁).mp h
    have hk₂ : k ∉ l₂.map Prod.fst := fun hc => hk ((hp.map Prod.fst).mem_iff.mpr hc)
    exact ((lookup_eq_none_iff k l₂).mpr hk₂).symm
  | some v =>
    have hm : (k, v) ∈ l₂ := hp.mem_iff.mp (mem_of_lookup_some h)
    have hn₂ : (l₂.map Prod.fst).Nodup := ((hp.map Prod.fst).nodup_iff).mp hn
    exact (lookup_some_of_mem hn₂ hm).symm

theorem sublist_keys_cons (k v : String) (l : List (String × String)) (ks : List String)
    (h : List.Sublist (l.map Prod.fst) ks) :
    List.Sublist (((addParam k v) ++ l).map Prod.fst) (k :: ks) := by
  unfold addParam
  split
  · simpa using h.cons k
  · simpa using h.cons₂ k

theorem sublist_keys_last (k v : String) :
    List.Sublist ((addParam k v).map Prod.fst) [k] := by
  unfold addParam
  split
  · simp
  · simp

theorem bqp_keys_sublist (p : CreateDurableLinkRequest) :
    List.Sublist ((buildQueryParams p).map Prod.fst) allKeys := by
  simp only [buildQueryParams, allKeys, List.append_assoc, List.singleton_append,
    List.cons_append, List.nil_append, List.map_cons]
  refine List.Sublist.cons₂ _ ?_
  refine sublist_keys_cons _ _ _ _ ?_
  refine sublist_keys_cons _ _ _ _ ?_
  refine sublist_keys_cons _ _ _ _ ?_
  refine sublist_keys_cons _ _ _ _ ?_
  refine sublist_keys_cons _ _ _ _ ?_
  refine sublist_keys_cons _ _ _ _ ?_
  refine sublist_keys_cons _ _ _ _ ?_
  refine sublist_keys_cons _ _ _ _ ?_
  refine sublist_keys_cons _ _ _ _ ?_
  refine sublist_keys_cons _ _ _ _ ?_
  refine sublist_keys_cons _ _ _ _ ?_
  refine sublist_keys_cons _ _ _ _ ?_
  refine sublist_keys_cons _ _ _ _ ?_
  refine sublist_keys_cons _ _ _ _ ?_
  refine sublist_keys_cons _ _ _ _ ?_
  refine sublist_keys_cons _ _ _ _ ?_
  refine sublist_keys_cons _ _ _ _ ?_
  refine sublist_keys_cons _ _ _ _ ?_
  exact sublist_keys_last _ _

theorem allKeys_nodup : allKeys.Nodup := by decide

theorem bqp_keys_nodup (p : CreateDurableLinkRequest) :
    ((buildQueryParams p).map Prod.fst).Nodup :=
  allKeys_nodup.sublist (bqp_keys_sublist p)

theorem sortByKey_eq_of_perm {l₁ l₂ : List (String × String)}
    (hp : l₁.Perm l₂) (hn : (l₁.map Prod.fst).Nodup) :
    sortByKey l₁ = sortByKey l₂ := by
  apply sorted_perm_eq_of_nodupKeys
  · exact (List.perm_insertionSort pairLe l₁).trans
      (hp.trans (List.perm_insertionSort pairLe l₂).symm)
  · exact List.sorted_insertionSort pairLe l₁
  · exact List.sorted_insertionSort pairLe l₂
  · exact (((List.perm_insertionSort pairLe l₁).map Prod.fst).nodup_iff).mpr hn

theorem lookup_addParam_ne (k k' v : String) (l : List (String × String))
    (h : (k == k') = false) :
    List.lookup k (addParam k' v ++ l) = List.lookup k l := by
  unfold addParam
  split
  · simp
  · simp [List.lookup, h]

theorem lookup_addParam_eq (k v : String) (l : List (String × String)) :
    List.lookup k (addParam k v ++ l) = if v = "" then List.lookup k l else some v := by
  unfold addParam
  split
  · simp [*]
  · simp [List.lookup, *]

theorem lookup_addParam_last_ne (k k' v : String) (h : (k == k') = false) :
    List.lookup k (addParam k' v) = none := by
  unfold addParam
  split
  · simp
  · simp [List.lookup, h]

theorem lookup_addParam_last_eq (k v : String) :
    List.lookup k (addParam k v) = if v = "" then none else some v := by
  unfold addParam
  split
  · simp [*]
  · simp [List.lookup, *]

theorem lookup_cons_ne (k k' v : String) (l : List (String × String))
    (h : (k == k') = false) :
    List.lookup k ((k', v) :: l) = List.lookup k l := by
  simp [List.lookup, h]

/-! Values of `getParam` over the pairs built by `CreateDurableLink`:
each key recovers exactly the field it encodes (the empty string when the
field was omitted). -/


theorem getBqp_link (d : CreateDurableLinkRequest) :
    getParam "link" (buildQueryParams d) = d.durableLinkInfo.link := by
  simp only [getParam, buildQueryParams, List.append_assoc, List.singleton_append,
    List.cons_append, List.nil_append]
  simp [List.lookup]

theorem getBqp_apn (d : CreateDurableLinkRequest) :
    getParam "apn" (buildQueryParams d) = d.durableLinkInfo.androidParameters.androidPackageName := by
  simp only [getParam, buildQueryParams, List.append_assoc, List.singleton_append,
    List.cons_append, List.nil_append]
  simp [lookup_cons_ne, lookup_addParam_ne, lookup_addParam_eq,
    lookup_addParam_last_ne, lookup_addParam_last_eq]
  by_cases h : d.durableLinkInfo.androidParameters.androidPackageName = "" <;> simp [h]

theorem getBqp_afl (d : CreateDurableLinkRequest) :
    getParam "afl" (buildQueryParams d) = d.durableLinkInfo.androidParameters.androidFallbackLink := by
  simp only [getParam, buildQueryParams, List.append_assoc, List.singleton_append,
    List.cons_append, List.nil_append]
  simp [lookup_cons_ne, lookup_addParam_ne, lookup_addParam_eq,
    lookup_addParam_last_ne, lookup_addParam_last_eq]
  by_cases h : d.durableLinkInfo.androidParameters.androidFallbackLink = "" <;> simp [h]

theorem getBqp_amv (d : CreateDurableLinkRequest) :
    getParam "amv" (buildQueryParams d) = d.durableLinkInfo.androidParameters.androidMinPackageVersionCode := by
  simp only [getParam, buildQueryParams, List.append_assoc, List.singleton_append,
    List.cons_append, List.nil_append]
  simp [lookup_cons_ne, lookup_addParam_ne, lookup_addParam_eq,
    lookup_addParam_last_ne, lookup_addParam_last_eq]
  by_cases h : d.durableLinkInfo.androidParameters.androidMinPackageVersionCode = "" <;> simp [h]

theorem getBqp_ifl (d : CreateDurableLinkRequest) :
    getParam "ifl" (buildQueryParams d) = d.durableLinkInfo.iosParameters.iosFallbackLink := by
  simp only [getParam, buildQueryParams, List.append_assoc, List.singleton_append,
    List.cons_append, List.nil_append]
  simp [lookup_cons_ne, lookup_addParam_ne, lookup_addParam_eq,
    lookup_addParam_last_ne, lookup_addParam_last_eq]
  by_cases h : d.durableLinkInfo.iosParameters.iosFallbackLink = "" <;> simp [h]

theorem getBqp_ipfl (d : CreateDurableLinkRequest) :
    getParam "ipfl" (buildQueryParams d) = d.durableLinkInfo.iosParameters.iosIpadFallbackLink := by
  simp only [getParam, buildQueryParams, List.append_assoc, List.singleton_append,
    List.cons_append, List.nil_append]
  simp [lookup_cons_ne, lookup_addParam_ne, lookup_addParam_eq,
    lookup_addParam_last_ne, lookup_addParam_last_eq]
  by_cases h : d.durableLinkInfo.iosParameters.iosIpadFallbackLink = "" <;> simp [h]

theorem getBqp_isi (d : CreateDurableLinkRequest) :
    getParam "isi" (buildQueryParams d) = d.durableLinkInfo.iosParameters.iosAppStoreId := by
  simp only [getParam, buildQueryParams, List.append_assoc, List.singleton_append,
    List.cons_append, List.nil_append]
  simp [lookup_cons_ne, lookup_addParam_ne, lookup_addParam_eq,
    lookup_addParam_last_ne, lookup_addParam_last_eq]
  by_cases h : d.durableLinkInfo.iosParameters.iosAppStoreId = "" <;> simp [h]

theorem getBqp_ofl (d : CreateDurableLinkRequest) :
    getParam "ofl" (buildQueryParams d) = d.durableLinkInfo.otherPlatformParameters.fallbackURL := by
  simp only [getParam, buildQueryParams, List.append_assoc, List.singleton_append,
    List.cons_append, List.nil_append]
  simp [lookup_cons_ne, lookup_addParam_ne, lookup_addParam_eq,
    lookup_addParam_last_ne, lookup_addParam_last_eq]
  by_cases h : d.durableLinkInfo.otherPlatformParameters.fallbackURL = "" <;> simp [h]

theorem getBqp_st (d : CreateDurableLinkRequest) :
    getParam "st" (buildQueryParams d) = d.durableLinkInfo.socialMetaTagInfo.socialTitle := by
  simp only [getParam, buildQueryParams, List.append_assoc, List.singleton_append,
    List.cons_append, List.nil_append]
  simp [lookup_cons_ne, lookup_addParam_ne, lookup_addParam_eq,
    lookup_addParam_last_ne, lookup_addParam_last_eq]
  by_cases h : d.durableLinkInfo.socialMetaTagInfo.socialTitle = "" <;> simp [h]

theorem getBqp_sd (d : CreateDurableLinkRequest) :
    getParam "sd" (buildQueryParams d) = d.durableLinkInfo.socialMetaTagInfo.socialDescription := by
  simp only [getParam, buildQueryParams, List.append_assoc, List.singleton_append,
    List.cons_append, List.nil_append]
  simp [lookup_cons_ne, lookup_addParam_ne, lookup_addParam_eq,
    lookup_addParam_last_ne, lookup_addParam_last_eq]
  by_cases h : d.durableLinkInfo.socialMetaTagInfo.socialDescription = "" <;> simp [h]

theorem getBqp_si (d : CreateDurableLinkRequest) :
    getParam "si" (buildQueryParams d) = d.durableLinkInfo.socialMetaTagInfo.socialImageLink := by
  simp only [getParam, buildQueryParams, List.append_assoc, List.singleton_append,
    List.cons_append, List.nil_append]
  simp [lookup_cons_ne, lookup_addParam_ne, lookup_addParam_eq,
    lookup_addParam_last_ne, lookup_addParam_last_eq]
  by_cases h : d.durableLinkInfo.socialMetaTagInfo.socialImageLink = "" <;> simp [h]

theorem getBqp_utm_source (d : CreateDurableLinkRequest) :
    getParam "utm_source" (buildQueryParams d) = d.durableLinkInfo.analyticsInfo.marketingParameters.utmSource := by
  simp only [getParam, buildQueryParams, List.append_assoc, List.singleton_append,
    List.cons_append, List.nil_append]
  simp [lookup_cons_ne, lookup_addParam_ne, lookup_addParam_eq,
    lookup_addParam_last_ne, lookup_addParam_last_eq]
  by_cases h : d.durableLinkInfo.analyticsInfo.marketingParameters.utmSource = "" <;> simp [h]

theorem getBqp_utm_medium (d : CreateDurableLinkRequest) :
    getParam "utm_medium" (buildQueryParams d) = d.durableLinkInfo.analyticsInfo.marketingParameters.utmMedium := by
  simp only [getParam, buildQueryParams, List.append_assoc, List.singleton_append,
    List.cons_append, List.nil_append]
  simp [lookup_cons_ne, lookup_addParam_ne, lookup_addParam_eq,
    lookup_addParam_last_ne, lookup_addParam_last_eq]
  by_cases h : d.durableLinkInfo.analyticsInfo.marketingParameters.utmMedium = "" <;> simp [h]

theorem getBqp_utm_campaign (d : CreateDurableLinkRequest) :
    getParam "utm_campaign" (buildQueryParams d) = d.durableLinkInfo.analyticsInfo.marketingParameters.utmCampaign := by
  simp only [getParam, buildQueryParams, List.append_assoc, List.singleton_append,
    List.cons_append, List.nil_append]
  simp [lookup_cons_ne, lookup_addParam_ne, lookup_addParam_eq,
    lookup_addParam_last_ne, lookup_addParam_last_eq]
  by_cases h : d.durableLinkInfo.analyticsInfo.marketingParameters.utmCampaign = "" <;> simp [h]

theorem getBqp_utm_term (d : CreateDurableLinkRequest) :
    getParam "utm_term" (buildQueryParams d) = d.durableLinkInfo.analyticsInfo.marketingParameters.utmTerm := by
  simp only [getParam, buildQueryParams, List.append_assoc, List.singleton_append,
    List.cons_append, List.nil_append]
  simp [lookup_cons_ne, lookup_addParam_ne, lookup_addParam_eq,
    lookup_addParam_last_ne, lookup_addParam_last_eq]
  by_cases h : d.durableLinkInfo.analyticsInfo.marketingParameters.utmTerm = "" <;> simp [h]

theorem getBqp_utm_content (d : CreateDurableLinkRequest) :
    getParam "utm_content" (buildQueryParams d) = d.durableLinkInfo.analyticsInfo.marketingParameters.utmContent := by
  simp only [getParam, buildQueryParams, List.append_assoc, List.singleton_append,
    List.cons_append, List.nil_append]
  simp [lookup_cons_ne, lookup_addParam_ne, lookup_addParam_eq,
    lookup_addParam_last_ne, lookup_addParam_last_eq]
  by_cases h : d.durableLinkInfo.analyticsInfo.marketingParameters.utmContent = "" <;> simp [h]

theorem getBqp_pt (d : CreateDurableLinkRequest) :
    getParam "pt" (buildQueryParams d) = d.durableLinkInfo.analyticsInfo.itunesConnectAnalytics.pt := by
  simp only [getParam, buildQueryParams, List.append_assoc, List.singleton_append,
    List.cons_append, List.nil_append]
  simp [lookup_cons_ne, lookup_addParam_ne, lookup_addParam_eq,
    lookup_addParam_last_ne, lookup_addParam_last_eq]
  by_cases h : d.durableLinkInfo.analyticsInfo.itunesConnectAnalytics.pt = "" <;> simp [h]

theorem getBqp_at (d : CreateDurableLinkRequest) :
    getParam "at" (buildQueryParams d) = d.durableLinkInfo.analyticsInfo.itunesConnectAnalytics.at_ := by
  simp only [getParam, buildQueryParams, List.append_assoc, List.singleton_append,
    List.cons_append, List.nil_append]
  simp [lookup_cons_ne, lookup_addParam_ne, lookup_addParam_eq,
    lookup_addParam_last_ne, lookup_addParam_last_eq]
  by_cases h : d.durableLinkInfo.analyticsInfo.itunesConnectAnalytics.at_ = "" <;> simp [h]

theorem getBqp_ct (d : CreateDurableLinkRequest) :
    getParam "ct" (buildQueryParams d) = d.durableLinkInfo.analyticsInfo.itunesConnectAnalytics.ct := by
  simp only [getParam, buildQueryParams, List.append_assoc, List.singleton_append,
    List.cons_append, List.nil_append]
  simp [lookup_cons_ne, lookup_addParam_ne, lookup_addParam_eq,
    lookup_addParam_last_ne, lookup_addParam_last_eq]
  by_cases h : d.durableLinkInfo.analyticsInfo.itunesConnectAnalytics.ct = "" <;> simp [h]

theorem getBqp_mt (d : CreateDurableLinkRequest) :
    getParam "mt" (buildQueryParams d) = d.durableLinkInfo.analyticsInfo.itunesConnectAnalytics.mt := by
  simp only [getParam, buildQueryParams, List.append_assoc, List.singleton_append,
    List.cons_append, List.nil_append]
  simp [lookup_cons_ne, lookup_addParam_ne, lookup_addParam_eq,
    lookup_addParam_last_ne, lookup_addParam_last_eq]
  by_cases h : d.durableLinkInfo.analyticsInfo.itunesConnectAnalytics.mt = "" <;> simp [h]

theorem getBqp_path (d : CreateDurableLinkRequest) :
    getParam "path" (buildQueryParams d) = "" := by
  simp only [getParam, buildQueryParams, List.append_assoc, List.singleton_append,
    List.cons_append, List.nil_append]
  simp [lookup_cons_ne, lookup_addParam_ne, lookup_addParam_eq,
    lookup_addParam_last_ne, lookup_addParam_last_eq]

/-! ## Claim theorems -/

theorem getParam_sortByKey (k : String) (l : List (String × String))
    (hn : (l.map Prod.fst).Nodup) :
    getParam k (sortByKey l) = getParam k l := by
  unfold getParam sortByKey
  rw [lookup_perm_of_nodupKeys (List.perm_insertionSort pairLe l)
    (((List.perm_insertionSort pairLe l).map Prod.fst).nodup_iff.mpr hn) k]

theorem ite_ne_empty (v : String) : (if v ≠ "" then v else "") = v := by
  by_cases h : v = "" <;> simp [h]

/-- C9: preview normalization strips a leading `preview.` label
(`preview.foo.com` resolves to `foo.com`), strips a `-preview` tail from the
first label (`foo-preview.bar.com` resolves to `foo.bar.com`), and leaves any
other host unchanged. -/
theorem claim9_preview_normalization :
    removePreviewFromHost "preview.foo.com" = "foo.com" ∧
    removePreviewFromHost "foo-preview.bar.com" = "foo.bar.com" ∧
    removePreviewFromHost "foo.com" = "foo.com" ∧
    ∀ host : String, goHasPre host "preview." = false →
      (∀ a b : String, goSplitN2Dot host = [a, b] → goHasSuf a "-preview" = false) →
      removePreviewFromHost host = host := by
  refine ⟨by decide, by decide, by decide, ?_⟩
  intro host h1 h2
  unfold removePreviewFromHost
  rw [h1]
  simp only [Bool.false_eq_true, if_false]
  split
  · rename_i a b heq
    rw [h2 a b heq]
    simp
  · rfl

theorem claim9_witness : removePreviewFromHost "bar.org" = "bar.org" := by
  refine claim9_preview_normalization.2.2.2 "bar.org" (by decide) ?_
  intro a b h
  have hsplit : goSplitN2Dot "bar.org" = ["bar", "org"] := by decide
  rw [hsplit] at h
  injection h with h1 h2
  subst h1
  decide

/-- C2: two requests whose canonicalizer pair lists contain the same pairs
(in any order) produce byte-identical serialized query strings, because
`Encode` sorts the pairs by key. -/
theorem claim2_canonical_encoding (r1 r2 : CreateDurableLinkRequest)
    (h : (buildQueryParams r1).Perm (buildQueryParams r2)) :
    encodeValues (buildQueryParams r1) = encodeValues (buildQueryParams r2) := by
  unfold encodeValues
  rw [sortByKey_eq_of_perm h (bqp_keys_nodup r1)]

theorem claim2_witness :
    encodeValues (buildQueryParams
      { durableLinkInfo := { host := "x.link", link := "https://e.com" } }) =
    encodeValues (buildQueryParams
      { durableLinkInfo := { host := "x.link", link := "https://e.com" } }) :=
  claim2_canonical_encoding _ _ (List.Perm.refl _)

/-- C1 (amended): on a stored-record hit, `ResolveShortPath` reconstructs
`scheme://normalizedHost/path[?rawQuery]` — the *normalized* host is used both
as the lookup key and as the authority of the reconstructed link, and the `?`
is omitted exactly when the stored raw query is empty. -/
theorem claim1_resolution_reconstruction (cfg : AppConfig) (store : Store)
    (u : URLParts) (p rawQ : String)
    (hpath : goSplitSlash (goTrimSlashes u.path) = [p])
    (hget : Repo.getQueryParamsByHostAndPath store (removePreviewFromHost u.host) p =
      .ok rawQ) :
    resolveShortPath cfg store (some u) =
      .ok { longLink := fullLink cfg (removePreviewFromHost u.host) p ++
            (if rawQ = "" then "" else "?" ++ rawQ) } := by
  have hstep : resolveShortPath cfg store (some u) =
      (match goSplitSlash (goTrimSlashes u.path) with
       | [p] => getLongLinkFromHostAndPath cfg store (removePreviewFromHost u.host) p
       | _ => .error .invalidPathFormat) := rfl
  rw [hstep, hpath]
  show ((match Repo.getQueryParamsByHostAndPath store (removePreviewFromHost u.host) p with
        | Except.error e => Except.error (AppError.repoErr e)
        | Except.ok rawQueryStr =>
          Except.ok (LongLinkResponse.mk (fullLink cfg (removePreviewFromHost u.host) p ++
            (if rawQueryStr = "" then "" else "?" ++ rawQueryStr)))) :
        Except AppError LongLinkResponse) = _
  rw [hget]

theorem claim1_witness :
    resolveShortPath {} [⟨"foo.com", "abc", "q", false⟩]
        (some { host := "preview.foo.com", path := "/abc" }) =
      .ok { longLink := "https://foo.com/abc?q" } := by
  have h := claim1_resolution_reconstruction {} [⟨"foo.com", "abc", "q", false⟩]
    { host := "preview.foo.com", path := "/abc" } "abc" "q" (by decide) (by decide)
  simpa using h

/-- C1 counterexample: the code rebuilds the long link with the *normalized*
host, not the original requested host, so resolving through a preview host
yields an authority different from the requested one. -/
theorem claim1_counterexample :
    resolveShortPath {} [⟨"foo.com", "abc", "", false⟩]
        (some { host := "preview.foo.com", path := "/abc" }) =
      .ok { longLink := "https://foo.com/abc" } ∧
    ("https://foo.com/abc" : String) ≠ "https://preview.foo.com/abc" := by
  constructor
  · decide
  · decide

/-- C8 (amended): an unparsable URL yields `InvalidRequestedLink`; a path that
does not split into exactly one segment after trimming slashes yields
`InvalidPathFormat` before any lookup; a single segment — the empty segment
included — is looked up in persistence. -/
theorem claim8_path_shape :
    (∀ (cfg : AppConfig) (store : Store),
      resolveShortPath cfg store none = .error .invalidRequestedLink) ∧
    (∀ (cfg : AppConfig) (store : Store) (u : URLParts),
      (goSplitSlash (goTrimSlashes u.path)).length ≠ 1 →
      resolveShortPath cfg store (some u) = .error .invalidPathFormat) ∧
    (∀ (cfg : AppConfig) (store : Store) (u : URLParts) (p : String),
      goSplitSlash (goTrimSlashes u.path) = [p] →
      resolveShortPath cfg store (some u) =
        getLongLinkFromHostAndPath cfg store (removePreviewFromHost u.host) p) := by
  have hstep : ∀ (cfg : AppConfig) (store : Store) (u : URLParts),
      resolveShortPath cfg store (some u) =
      (match goSplitSlash (goTrimSlashes u.path) with
       | [p] => getLongLinkFromHostAndPath cfg store (removePreviewFromHost u.host) p
       | _ => .error .invalidPathFormat) := fun _ _ _ => rfl
  refine ⟨fun _ _ => rfl, ?_, ?_⟩
  · intro cfg store u hlen
    rw [hstep]
    rcases hsp : goSplitSlash (goTrimSlashes u.path) with _ | ⟨x, _ | ⟨y, t⟩⟩
    · rfl
    · rw [hsp] at hlen; simp at hlen
    · rfl
  · intro cfg store u p hsp
    rw [hstep, hsp]

theorem claim8_witness :
    resolveShortPath {} [] (some { host := "foo.com", path := "/a/b" }) =
      .error .invalidPathFormat := by
  have h := claim8_path_shape.2.1 {} [] { host := "foo.com", path := "/a/b" } (by decide)
  exact h

/-- C8 counterexample: an empty path is *not* rejected as `InvalidPathFormat`:
after trimming, `strings.Split` yields the single empty segment, which is
looked up in persistence (and here finds a record). -/
theorem claim8_counterexample :
    resolveShortPath {} [⟨"foo.com", "", "link=x", false⟩]
        (some { host := "foo.com", path := "/" }) =
      .ok { longLink := "https://foo.com/?link=x" } := by decide

/-- C3 (amended): with the configured defaults for `apn` and `isi` unset,
parsing the long-form URL whose query is the canonical encoding of a
description `d` (host, target link and at most one platform block populated)
recovers `d` exactly: the key mapping is a bijection on populated fields. -/
theorem claim3_roundtrip (cfg : AppConfig) (urlPar : String → Option URLParts)
    (s : String) (d : CreateDurableLinkRequest) (u : URLParts)
    (hd1 : cfg.defaultAndroidPackageName = none)
    (hd2 : cfg.defaultIosStoreId = none)
    (hurl : urlPar s = some u)
    (huh : u.host = d.durableLinkInfo.host)
    (huq : u.queryPairs = sortByKey (buildQueryParams d))
    (hhost : d.durableLinkInfo.host ≠ "")
    (hlink : d.durableLinkInfo.link ≠ "")
    (hsuffix : d.suffix = {})
    (hplat : platformBlocksOnly d) :
    parseLongDurableLink cfg urlPar s = .ok d := by
  have hq : ∀ k, getParam k u.queryPairs = getParam k (buildQueryParams d) := by
    intro k
    rw [huq, getParam_sortByKey k _ (bqp_keys_nodup d)]
  have hstep : parseLongDurableLink cfg urlPar s = parseURLParts cfg u := by
    unfold parseLongDurableLink
    rw [hurl]
  rw [hstep]
  unfold parseURLParts
  rw [if_neg (huh ▸ hhost)]
  obtain ⟨⟨host, link, ⟨apn, afl, amv⟩, ⟨isi, ifl, ipfl⟩, ⟨ofl⟩, ⟨st, sd, si⟩,
    ⟨⟨us, um, uc, ut2, uco⟩, ⟨a, c, m, p⟩⟩⟩, ⟨opt⟩⟩ := d
  have hopt : opt = "" := congrArg Suffix.option hsuffix
  subst hopt
  simp only [hq, getBqp_link, getBqp_apn, getBqp_afl, getBqp_amv, getBqp_ifl,
    getBqp_ipfl, getBqp_isi, getBqp_ofl, getBqp_st, getBqp_sd, getBqp_si,
    getBqp_utm_source, getBqp_utm_medium, getBqp_utm_campaign, getBqp_utm_term,
    getBqp_utm_content, getBqp_pt, getBqp_at, getBqp_ct, getBqp_mt, getBqp_path,
    hd1, hd2, Option.getD_none, ite_ne_empty, huh]

theorem claim3_witness :
    parseLongDurableLink {}
      (fun _ => some (⟨"h.com", "", sortByKey (buildQueryParams iosOnlyRequest)⟩ : URLParts))
      "https://h.com/long" = .ok iosOnlyRequest := by
  exact claim3_roundtrip {} _ "https://h.com/long" iosOnlyRequest _
    rfl rfl rfl rfl rfl (by decide) (by decide) rfl
    ⟨rfl, rfl, Or.inr (Or.inl ⟨rfl, rfl⟩)⟩

/-- C3 counterexample: with a configured default Android package name, parsing
the canonical encoding of an iOS-only description fills in the default `apn`,
so the round trip does not return the original description. -/
theorem claim3_counterexample :
    parseLongDurableLink { defaultAndroidPackageName := some "com.example.app" }
      (fun _ => some (⟨"h.com", "", sortByKey (buildQueryParams iosOnlyRequest)⟩ : URLParts))
      "https://h.com/long" ≠ .ok iosOnlyRequest := by decide

/-- C4: the allocator.  With a `SHORT` suffix a matching guessable record is
reused as `scheme://host/path` with the store untouched; on a miss, or for a
non-`SHORT` suffix, a token of the configured length (short length for
`SHORT`, unguessable length otherwise) is generated and persisted with
`unguessable = (suffix != SHORT)`, and `scheme://host/token` is returned.
The generator is the absent `utils` collaborator; under its contract the
chosen token is alphanumeric of exactly the requested length. -/
theorem claim4_allocator (cfg : AppConfig) (ut : Utils) (store : Store)
    (host : String) (qp : List (String × String)) (p : String) :
    (Repo.findExistingShortLink store host (encodeValues qp) = .ok p →
      createOrGetShortLink cfg ut store host qp true =
        .ok ({ shortLink := fullLink cfg host p, warnings := [] }, store)) ∧
    (Repo.findExistingShortLink store host (encodeValues qp) = .error .noRows →
      store.any (fun r => r.host == host &&
        r.path == ut.generateRandomAlphanumericString cfg.shortPathLength) = false →
      createOrGetShortLink cfg ut store host qp true =
        .ok ({ shortLink := fullLink cfg host
                 (ut.generateRandomAlphanumericString cfg.shortPathLength),
               warnings := [] },
             store ++ [⟨host, ut.generateRandomAlphanumericString cfg.shortPathLength,
               encodeValues qp, false⟩])) ∧
    (store.any (fun r => r.host == host &&
        r.path == ut.generateRandomAlphanumericString cfg.unguessablePathLength) = false →
      createOrGetShortLink cfg ut store host qp false =
        .ok ({ shortLink := fullLink cfg host
                 (ut.generateRandomAlphanumericString cfg.unguessablePathLength),
               warnings := [] },
             store ++ [⟨host, ut.generateRandomAlphanumericString cfg.unguessablePathLength,
               encodeValues qp, true⟩])) ∧
    ((∀ n, (ut.generateRandomAlphanumericString n).length = n ∧
        isAlphanumericString (ut.generateRandomAlphanumericString n) = true) →
      (ut.generateRandomAlphanumericString cfg.shortPathLength).length =
          cfg.shortPathLength ∧
        isAlphanumericString
          (ut.generateRandomAlphanumericString cfg.shortPathLength) = true ∧
        (ut.generateRandomAlphanumericString cfg.unguessablePathLength).length =
          cfg.unguessablePathLength ∧
        isAlphanumericString
          (ut.generateRandomAlphanumericString cfg.unguessablePathLength) = true) := by
  refine ⟨?_, ?_, ?_, ?_⟩
  · intro h
    simp only [createOrGetShortLink, serviceFindExistingShortLink, if_true]
    rw [h]
  · intro hfind hnodup
    simp only [createOrGetShortLink, serviceFindExistingShortLink,
      serviceCreateShortLink, Repo.createShortLink, if_true]
    rw [hfind]
    simp only [reduceCtorEq, if_true, if_pos rfl]
    rw [hnodup]
    simp
  · intro hnodup
    simp only [createOrGetShortLink, serviceFindExistingShortLink,
      serviceCreateShortLink, Repo.createShortLink, Bool.false_eq_true, if_false]
    rw [hnodup]
    simp
  · intro hgen
    exact ⟨(hgen _).1, (hgen _).2, (hgen _).1, (hgen _).2⟩

theorem claim4_witness :
    createOrGetShortLink {} {} [⟨"x.link", "abc123", "link=x", false⟩]
        "x.link" [("link", "x")] true =
      .ok ({ shortLink := "https://x.link/abc123", warnings := [] },
           [⟨"x.link", "abc123", "link=x", false⟩]) := by
  have h := (claim4_allocator {} {} [⟨"x.link", "abc123", "link=x", false⟩]
    "x.link" [("link", "x")] "abc123").1 (by decide)
  simpa using h

theorem mem_ite_nil {c : Prop} [Decidable c] {α} (w : α) (l : List α) :
    (w ∈ if c then l else []) ↔ (c ∧ w ∈ l) := by
  split <;> simp [*]

theorem createDurableLink_ok_warnings (cfg : AppConfig) (ut : Utils) (store : Store)
    (params : CreateDurableLinkRequest) (resp : ShortLinkResponse) (store' : Store)
    (hok : createDurableLink cfg ut store params = .ok (resp, store')) :
    resp.warnings = creationWarnings ut.isURL params.durableLinkInfo := by
  unfold createDurableLink at hok
  split at hok
  · exact Except.noConfusion hok
  · split at hok
    · exact Except.noConfusion hok
    · split at hok
      · exact Except.noConfusion hok
      · split at hok
        · exact Except.noConfusion hok
        · injection hok with h
          injection h with h1 h2
          rw [← h1]

/-- C5: with `isi` empty, each non-empty `at`/`ct`/`mt`/`pt` receives an
`UNRECOGNIZED_PARAM` warning; independently, with `pt` empty, each non-empty
`at`/`ct`/`mt` receives one.  Both checks run unconditionally (the same field
can be flagged twice), and flagged parameters are still encoded. -/
theorem claim5_dependency_warnings (cfg : AppConfig) (ut : Utils) (store : Store)
    (params : CreateDurableLinkRequest) (resp : ShortLinkResponse) (store' : Store)
    (hok : createDurableLink cfg ut store params = .ok (resp, store')) :
    resp.warnings = creationWarnings ut.isURL params.durableLinkInfo ∧
    ((⟨"UNRECOGNIZED_PARAM", "Param 'at' is not needed, since 'isi' is not specified."⟩ ∈ resp.warnings) ↔
      (params.durableLinkInfo.iosParameters.iosAppStoreId = "" ∧
       params.durableLinkInfo.analyticsInfo.itunesConnectAnalytics.at_ ≠ "")) ∧
    ((⟨"UNRECOGNIZED_PARAM", "Param 'ct' is not needed, since 'isi' is not specified."⟩ ∈ resp.warnings) ↔
      (params.durableLinkInfo.iosParameters.iosAppStoreId = "" ∧
       params.durableLinkInfo.analyticsInfo.itunesConnectAnalytics.ct ≠ "")) ∧
    ((⟨"UNRECOGNIZED_PARAM", "Param 'mt' is not needed, since 'isi' is not specified."⟩ ∈ resp.warnings) ↔
      (params.durableLinkInfo.iosParameters.iosAppStoreId = "" ∧
       params.durableLinkInfo.analyticsInfo.itunesConnectAnalytics.mt ≠ "")) ∧
    ((⟨"UNRECOGNIZED_PARAM", "Param 'pt' is not needed, since 'isi' is not specified."⟩ ∈ resp.warnings) ↔
      (params.durableLinkInfo.iosParameters.iosAppStoreId = "" ∧
       params.durableLinkInfo.analyticsInfo.itunesConnectAnalytics.pt ≠ "")) ∧
    ((⟨"UNRECOGNIZED_PARAM", "Param 'at' is not needed, since 'pt' is not specified."⟩ ∈ resp.warnings) ↔
      (params.durableLinkInfo.analyticsInfo.itunesConnectAnalytics.pt = "" ∧
       params.durableLinkInfo.analyticsInfo.itunesConnectAnalytics.at_ ≠ "")) ∧
    ((⟨"UNRECOGNIZED_PARAM", "Param 'ct' is not needed, since 'pt' is not specified."⟩ ∈ resp.warnings) ↔
      (params.durableLinkInfo.analyticsInfo.itunesConnectAnalytics.pt = "" ∧
       params.durableLinkInfo.analyticsInfo.itunesConnectAnalytics.ct ≠ "")) ∧
    ((⟨"UNRECOGNIZED_PARAM", "Param 'mt' is not needed, since 'pt' is not specified."⟩ ∈ resp.warnings) ↔
      (params.durableLinkInfo.analyticsInfo.itunesConnectAnalytics.pt = "" ∧
       params.durableLinkInfo.analyticsInfo.itunesConnectAnalytics.mt ≠ "")) ∧
    (params.durableLinkInfo.analyticsInfo.itunesConnectAnalytics.at_ ≠ "" →
      ("at", params.durableLinkInfo.analyticsInfo.itunesConnectAnalytics.at_) ∈
        buildQueryParams params) ∧
    (params.durableLinkInfo.analyticsInfo.itunesConnectAnalytics.ct ≠ "" →
      ("ct", params.durableLinkInfo.analyticsInfo.itunesConnectAnalytics.ct) ∈
        buildQueryParams params) ∧
    (params.durableLinkInfo.analyticsInfo.itunesConnectAnalytics.mt ≠ "" →
      ("mt", params.durableLinkInfo.analyticsInfo.itunesConnectAnalytics.mt) ∈
        buildQueryParams params) ∧
    (params.durableLinkInfo.analyticsInfo.itunesConnectAnalytics.pt ≠ "" →
      ("pt", params.durableLinkInfo.analyticsInfo.itunesConnectAnalytics.pt) ∈
        buildQueryParams params) := by
  have hw : resp.warnings = creationWarnings ut.isURL params.durableLinkInfo :=
    createDurableLink_ok_warnings cfg ut store params resp store' hok
  rw [hw]
  refine ⟨rfl, ?_, ?_, ?_, ?_, ?_, ?_, ?_, ?_, ?_, ?_, ?_⟩
  · simp [creationWarnings, mem_ite_nil, List.mem_append]
  · simp [creationWarnings, mem_ite_nil, List.mem_append]
  · simp [creationWarnings, mem_ite_nil, List.mem_append]
  · simp [creationWarnings, mem_ite_nil, List.mem_append]
  · simp [creationWarnings, mem_ite_nil, List.mem_append]
  · simp [creationWarnings, mem_ite_nil, List.mem_append]
  · simp [creationWarnings, mem_ite_nil, List.mem_append]
  · intro h; simp [buildQueryParams, addParam, List.mem_append, h]
  · intro h; simp [buildQueryParams, addParam, List.mem_append, h]
  · intro h; simp [buildQueryParams, addParam, List.mem_append, h]
  · intro h; simp [buildQueryParams, addParam, List.mem_append, h]

theorem claim5_witness :
    ((⟨"UNRECOGNIZED_PARAM", "Param 'at' is not needed, since 'isi' is not specified."⟩ ∈
      ({ shortLink := "https://x.link/aaaaaaaaaa",
         warnings := [⟨"UNRECOGNIZED_PARAM", "Param 'at' is not needed, since 'isi' is not specified."⟩,
                      ⟨"UNRECOGNIZED_PARAM", "Param 'at' is not needed, since 'pt' is not specified."⟩] } :
        ShortLinkResponse).warnings) ↔ (("" : String) = "" ∧ ("x" : String) ≠ "")) := by
  have h := (claim5_dependency_warnings {} {} []
    { durableLinkInfo :=
        { host := "x.link", link := "https://e.com",
          analyticsInfo := { itunesConnectAnalytics := { at_ := "x" } } } }
    { shortLink := "https://x.link/aaaaaaaaaa",
      warnings := [⟨"UNRECOGNIZED_PARAM", "Param 'at' is not needed, since 'isi' is not specified."⟩,
                   ⟨"UNRECOGNIZED_PARAM", "Param 'at' is not needed, since 'pt' is not specified."⟩] }
    [⟨"x.link", "aaaaaaaaaa", "at=x&link=https%3A%2F%2Fe.com", true⟩]
    (by decide)).2.1
  exact h

/-- C6 (amended): with `isi` empty, `at="x"` and the other iTunes fields
empty, the creation emits exactly TWO `UNRECOGNIZED_PARAM` entries for `at`
(one from the `isi` check and one from the `pt` check, since `pt` is empty
too); with `isi` empty, `pt="y"` and `at="x"`, exactly ONE entry for `at`
(from the `isi` check only — the `pt` check does not fire because `pt` is
non-empty). -/
theorem claim6_at_warning_counts :
    (createDurableLink {} {} []
      { durableLinkInfo :=
          { host := "x.link", link := "https://e.com",
            analyticsInfo := { itunesConnectAnalytics := { at_ := "x" } } } }).map
        (fun r => countAtWarnings r.1.warnings) = .ok 2 ∧
    (createDurableLink {} {} []
      { durableLinkInfo :=
          { host := "x.link", link := "https://e.com",
            analyticsInfo :=
              { itunesConnectAnalytics := { at_ := "x", pt := "y" } } } }).map
        (fun r => countAtWarnings r.1.warnings) = .ok 1 := by
  constructor
  · decide
  · decide

/-- C6 counterexample: in the first scenario (`isi=""`, `at="x"`, every other
iTunes field empty) the code produces two `UNRECOGNIZED_PARAM` entries for
`at`, not the single one the claim states. -/
theorem claim6_counterexample :
    (createDurableLink {} {} []
      { durableLinkInfo :=
          { host := "x.link", link := "https://e.com",
            analyticsInfo := { itunesConnectAnalytics := { at_ := "x" } } } }).map
        (fun r => countAtWarnings r.1.warnings) ≠ .ok 1 := by decide

/-- C7 (amended): every error arising during creation and resolution is
returned to the caller with no internal recovery.  `DuplicatePath` from the
persistence put is NOT retried: the allocator wraps it (Go:
`fmt.Errorf("failed to store link: %w", err)`) and returns it at once, like
any other put error; a non-`NoRows` error of the reuse lookup and a lookup
error during resolution are likewise returned as-is, and `CreateDurableLink`
passes any allocator error through unchanged. -/
theorem claim7_no_internal_recovery :
    (∀ (cfg : AppConfig) (ut : Utils) (store : Store) (host : String)
        (qp : List (String × String)) (e : RepoError),
      Repo.createShortLink store host
          (ut.generateRandomAlphanumericString cfg.unguessablePathLength)
          (encodeValues qp) true = .error e →
      createOrGetShortLink cfg ut store host qp false =
        .error (.failedToStore e)) ∧
    (∀ (cfg : AppConfig) (ut : Utils) (store : Store) (host : String)
        (qp : List (String × String)) (e : RepoError),
      Repo.findExistingShortLink store host (encodeValues qp) = .error .noRows →
      Repo.createShortLink store host
          (ut.generateRandomAlphanumericString cfg.shortPathLength)
          (encodeValues qp) false = .error e →
      createOrGetShortLink cfg ut store host qp true =
        .error (.failedToStore e)) ∧
    (∀ (cfg : AppConfig) (ut : Utils) (store : Store) (host : String)
        (qp : List (String × String)) (e : RepoError),
      Repo.findExistingShortLink store host (encodeValues qp) = .error e →
      e ≠ .noRows →
      createOrGetShortLink cfg ut store host qp true = .error (.repoErr e)) ∧
    (∀ (cfg : AppConfig) (store : Store) (u : URLParts) (p : String) (e : RepoError),
      goSplitSlash (goTrimSlashes u.path) = [p] →
      Repo.getQueryParamsByHostAndPath store (removePreviewFromHost u.host) p =
        .error e →
      resolveShortPath cfg store (some u) = .error (.repoErr e)) ∧
    (∀ (cfg : AppConfig) (ut : Utils) (store : Store)
        (params : CreateDurableLinkRequest) (host : String) (e : AppError),
      ut.cleanHost params.durableLinkInfo.host = some host →
      ut.isDomainAllowed cfg.allowedDomains params.durableLinkInfo.link = true →
      (params.durableLinkInfo.iosParameters.iosAppStoreId ≠ "" →
        ut.isNumericString params.durableLinkInfo.iosParameters.iosAppStoreId = true) →
      createOrGetShortLink cfg ut store host (buildQueryParams params)
        (params.suffix.option == "SHORT") = .error e →
      createDurableLink cfg ut store params = .error e) := by
  refine ⟨?_, ?_, ?_, ?_, ?_⟩
  · intro cfg ut store host qp e hput
    simp only [createOrGetShortLink, serviceCreateShortLink, Bool.false_eq_true,
      if_false, Bool.not_false]
    rw [hput]
  · intro cfg ut store host qp e hfind hput
    simp only [createOrGetShortLink, serviceFindExistingShortLink,
      serviceCreateShortLink, if_true, Bool.not_true]
    rw [hfind]
    simp only [if_pos rfl]
    rw [hput]
    simp
  · intro cfg ut store host qp e hfind hne
    simp only [createOrGetShortLink, serviceFindExistingShortLink, if_true]
    rw [hfind]
    simp only [if_neg hne]
  · intro cfg store u p e hpath hget
    have hstep : resolveShortPath cfg store (some u) =
        (match goSplitSlash (goTrimSlashes u.path) with
         | [p] => getLongLinkFromHostAndPath cfg store (removePreviewFromHost u.host) p
         | _ => .error .invalidPathFormat) := rfl
    rw [hstep, hpath]
    show ((match Repo.getQueryParamsByHostAndPath store (removePreviewFromHost u.host) p with
          | Except.error e => Except.error (AppError.repoErr e)
          | Except.ok rawQueryStr =>
            Except.ok (LongLinkResponse.mk (fullLink cfg (removePreviewFromHost u.host) p ++
              (if rawQueryStr = "" then "" else "?" ++ rawQueryStr)))) :
          Except AppError LongLinkResponse) = _
    rw [hget]
  · intro cfg ut store params host e hclean hallowed hnum hcg
    have hstep : createDurableLink cfg ut store params =
        (if ¬ ut.isDomainAllowed cfg.allowedDomains params.durableLinkInfo.link then
           .error .domainLinkNotAllowed
         else if params.durableLinkInfo.iosParameters.iosAppStoreId ≠ "" ∧
             ¬ ut.isNumericString params.durableLinkInfo.iosParameters.iosAppStoreId then
           .error .invalidAppStoreID
         else
           match createOrGetShortLink cfg ut store host (buildQueryParams params)
               (params.suffix.option == "SHORT") with
           | .error e => .error e
           | .ok (response, store') =>
             .ok ({ response with
                    warnings := creationWarnings ut.isURL params.durableLinkInfo },
                  store')) := by
      unfold createDurableLink
      rw [hclean]
    rw [hstep]
    rw [if_neg (by simp [hallowed])]
    rw [if_neg (by
      intro hcontra
      exact absurd (hnum hcontra.1) (by simpa using hcontra.2))]
    rw [hcg]

/-- C7 counterexample: a `DuplicatePath` failure of the persistence put is not
retried with a fresh token and not escalated to a storage error after retries:
the allocator returns the wrapped `DuplicatePath` immediately (here the single
generated token collides with the stored record). -/
theorem claim7_counterexample :
    createOrGetShortLink {} {} [⟨"h", "aaaaaaaaaa", "", false⟩] "h"
        [("link", "x")] false = .error (.failedToStore .duplicatePath) := by decide

theorem claim7_witness :
    createOrGetShortLink {} {} [⟨"h", "aaaaaaaaaa", "", false⟩] "h"
        [("link", "y")] false = .error (.failedToStore .duplicatePath) := by
  have h := claim7_no_internal_recovery.1 {} {} [⟨"h", "aaaaaaaaaa", "", false⟩]
    "h" [("link", "y")] .duplicatePath (by decide)
  exact h

/-- C10: a non-empty string under `longDurableLink` makes the request be built
exclusively from parsing that long link — every other key of the map is
ignored; only when that key is absent, not a string, or the empty string is
the map decoded structurally; and in both branches the result is then
rejected with `MissingHost` or `MissingLink` when host or link is empty. -/
theorem claim10_prepare_request :
    (∀ (cfg : AppConfig) (ut : Utils) (input : List (String × JValue)) (s : String),
      List.lookup "longDurableLink" input = some (JValue.str s) → s ≠ "" →
      prepareDurableLinkRequest cfg ut input =
        prepareDurableLinkRequest cfg ut [("longDurableLink", JValue.str s)]) ∧
    (∀ (cfg : AppConfig) (ut : Utils) (input : List (String × JValue)),
      (∀ s, List.lookup "longDurableLink" input = some (JValue.str s) → s = "") →
      prepareDurableLinkRequest cfg ut input =
        (match decodeRequest input with
         | .error e => .error e
         | .ok req => finalizeRequest ut req)) ∧
    (∀ (ut : Utils) (req : CreateDurableLinkRequest),
      (req.durableLinkInfo.host = "" → finalizeRequest ut req = .error .missingHost) ∧
      (req.durableLinkInfo.host ≠ "" → req.durableLinkInfo.link = "" →
        finalizeRequest ut req = .error .missingLink)) := by
  refine ⟨?_, ?_, ?_⟩
  · intro cfg ut input s hl hs
    have h1 : prepareDurableLinkRequest cfg ut input =
        (match parseLongDurableLink cfg ut.urlParse s with
         | .error e => .error e
         | .ok req => finalizeRequest ut req) := by
      simp only [prepareDurableLinkRequest]
      rw [hl]
      show (match (if s ≠ "" then parseLongDurableLink cfg ut.urlParse s
              else decodeRequest input) with
            | Except.error e => Except.error e
            | Except.ok req => finalizeRequest ut req) = _
      rw [if_pos hs]
    have h2 : prepareDurableLinkRequest cfg ut [("longDurableLink", JValue.str s)] =
        (match parseLongDurableLink cfg ut.urlParse s with
         | .error e => .error e
         | .ok req => finalizeRequest ut req) := by
      simp only [prepareDurableLinkRequest]
      have hl2 : List.lookup "longDurableLink" [("longDurableLink", JValue.str s)] =
          some (JValue.str s) := rfl
      rw [hl2]
      show (match (if s ≠ "" then parseLongDurableLink cfg ut.urlParse s
              else decodeRequest [("longDurableLink", JValue.str s)]) with
            | Except.error e => Except.error e
            | Except.ok req => finalizeRequest ut req) = _
      rw [if_pos hs]
    rw [h1, h2]
  · intro cfg ut input hfb
    simp only [prepareDurableLinkRequest]
    cases hl : List.lookup "longDurableLink" input with
    | none => rfl
    | some v =>
      cases v with
      | str s =>
        have hs : s = "" := hfb s hl
        subst hs
        show (match (if ("" : String) ≠ "" then parseLongDurableLink cfg ut.urlParse ""
                else decodeRequest input) with
              | Except.error e => Except.error e
              | Except.ok req => finalizeRequest ut req) = _
        rw [if_neg (by simp)]
      | null => rfl
      | bool b => rfl
      | num n => rfl
      | arr elems => rfl
      | obj fields => rfl
  · intro ut req
    constructor
    · intro h
      unfold finalizeRequest
      rw [if_pos h]
    · intro h1 h2
      unfold finalizeRequest
      rw [if_neg h1, if_pos h2]

theorem claim10_witness :
    prepareDurableLinkRequest {} {}
        [("junk", JValue.num 3), ("longDurableLink", JValue.str "L"),
         ("durableLinkInfo", JValue.obj [("host", JValue.str "x.link")])] =
      prepareDurableLinkRequest {} {} [("longDurableLink", JValue.str "L")] := by
  exact claim10_prepare_request.1 {} {}
    [("junk", JValue.num 3), ("longDurableLink", JValue.str "L"),
     ("durableLinkInfo", JValue.obj [("host", JValue.str "x.link")])] "L"
    rfl (by decide)

end DurableLinks
